import Mathlib

/-!
Verification development for the language-learning backend's pyramid
exercise core: the step-type scheduler, the anti-repetition tracker, the
session state machine (`create` / `select` / `append`), the content
generator adapter's retry loop, and the activity-event XP engine.

Conventions of the embedding:
* Python strings are `String`, Python ints are `Nat`/`Int`, Python floats
  are modelled as exact rationals (`ℚ`).  For the step-count rounding the
  six per-level ratio vectors are stored in hundredths; `round` is
  round-half-to-even, which agrees with CPython's `round` on IEEE doubles
  at every reachable `(total_steps, ratio)` pair of this program.
* `random.shuffle` is modelled by an arbitrary function together with the
  hypothesis that it permutes its input; `random.choice` padding is an
  arbitrary stream of strings.
* Fallible operations return `Except`/`Option`; raising an exception in
  the source (before any database write) corresponds to returning
  `.error`, so the stored session is unchanged in every error case.
-/

/-! ## Step-type scheduler (`pyramid_service.set_total_steps` / `set_step_types`) -/

/-- `set_total_steps` from `pyramid_service.py`: per-level step counts with
default 11 for unrecognized levels. -/
def set_total_steps (user_level : String) : Nat :=
  if user_level = "A1 - Beginner" then 8
  else if user_level = "A2 - Elementary" then 9
  else if user_level = "B1 - Intermediate" then 11
  else if user_level = "B2 - Upper Intermediate" then 12
  else if user_level = "C1 - Advanced" then 14
  else if user_level = "C2 - Proficient" then 15
  else 11

/-- The four transformation kinds, in the order of the source. -/
def transformationTypes : List String := ["expand", "paraphrase", "replace", "shrink"]

/-- The per-level ratio vectors of `set_step_types`, in hundredths
(source: `type_ratios`); the default is the B1 vector. -/
def typeRatiosLookup (level : String) : List Nat :=
  if level = "A1 - Beginner" then [30, 40, 20, 10]
  else if level = "A2 - Elementary" then [30, 30, 15, 25]
  else if level = "B1 - Intermediate" then [35, 20, 10, 35]
  else if level = "B2 - Upper Intermediate" then [25, 30, 15, 30]
  else if level = "C1 - Advanced" then [20, 35, 10, 35]
  else if level = "C2 - Proficient" then [15, 35, 10, 40]
  else [35, 20, 10, 35]

/-- Round-half-to-even of `m / 100`, mirroring Python's `round` applied to
`total_steps * ratio` (the IEEE-double computation agrees with this exact
one at every reachable input of the program). -/
def roundHundredths (m : Nat) : Nat :=
  let q := m / 100
  let r := m % 100
  if r < 50 then q
  else if 50 < r then q + 1
  else if q % 2 = 0 then q else q + 1

/-- The per-kind blocks of `set_step_types`: for each transformation kind,
`round(total_steps * ratio)` copies, concatenated in source order. -/
def baseStepArray (total_steps : Nat) (level : String) : List String :=
  (transformationTypes.zip (typeRatiosLookup level)).flatMap
    (fun tr => List.replicate (roundHundredths (total_steps * tr.2)) tr.1)

/-- The padding / truncation step of `set_step_types`: pad with the random
choices `pads` when the blocks fall short of `total_steps`, truncate when
they overshoot. -/
def padOrTruncate (total_steps : Nat) (pads : Nat → String) (base : List String) :
    List String :=
  if base.length < total_steps then
    base ++ (List.range (total_steps - base.length)).map pads
  else if total_steps < base.length then base.take total_steps
  else base

/-- The deterministic part of `set_step_types` before the shuffle (the final
`if not step_array` branch of the source is dead for `total_steps > 0` and
keeps the list unchanged). -/
def buildStepArray (total_steps : Nat) (level : String) (pads : Nat → String) : List String :=
  if (padOrTruncate total_steps pads (baseStepArray total_steps level)).isEmpty
      ∧ 0 < total_steps then
    (List.range total_steps).map pads
  else padOrTruncate total_steps pads (baseStepArray total_steps level)

/-- Scan `l` for the first non-`"shrink"` element; on success return it
together with `l` where that element has been replaced by `h` (the two ends
of the swap in the source's fix-up loop). -/
def swapFirstNonShrink (h : String) : List String → Option (String × List String)
  | [] => none
  | x :: xs =>
    if x = "shrink" then
      match swapFirstNonShrink h xs with
      | some p => some (p.1, x :: p.2)
      | none => none
    else some (x, h :: xs)

/-- Post-condition enforcement of `set_step_types`: if the first element is
`"shrink"`, swap it with the first non-`"shrink"` element; if the whole list
is `"shrink"`, force the first element to `"expand"`. -/
def fixFirstShrink : List String → List String
  | [] => []
  | h :: t =>
    if h = "shrink" then
      match swapFirstNonShrink h t with
      | some p => p.1 :: p.2
      | none => "expand" :: t
    else h :: t

/-- `set_step_types` from `pyramid_service.py`, with the two random sources
made explicit: `pads` supplies the `random.choice` padding and `shuffle`
models `random.shuffle` (theorems assume it permutes its argument). -/
def set_step_types (total_steps : Nat) (level : String) (pads : Nat → String)
    (shuffle : List String → List String) : List String :=
  fixFirstShrink (shuffle (buildStepArray total_steps level pads))

theorem swapFirstNonShrink_length (h : String) :
    ∀ l p, swapFirstNonShrink h l = some p → p.2.length = l.length := by
  intro l
  induction l with
  | nil => intro p hp; simp [swapFirstNonShrink] at hp
  | cons x xs ih =>
    intro p hp
    by_cases hx : x = "shrink"
    · simp only [swapFirstNonShrink, if_pos hx] at hp
      cases hq : swapFirstNonShrink h xs with
      | none => rw [hq] at hp; simp at hp
      | some q =>
        rw [hq] at hp
        simp only [Option.some.injEq] at hp
        subst hp
        simp [ih q hq]
    · simp only [swapFirstNonShrink, if_neg hx, Option.some.injEq] at hp
      subst hp
      simp

theorem swapFirstNonShrink_found (h : String) :
    ∀ l p, swapFirstNonShrink h l = some p → p.1 ≠ "shrink" := by
  intro l
  induction l with
  | nil => intro p hp; simp [swapFirstNonShrink] at hp
  | cons x xs ih =>
    intro p hp
    by_cases hx : x = "shrink"
    · simp only [swapFirstNonShrink, if_pos hx] at hp
      cases hq : swapFirstNonShrink h xs with
      | none => rw [hq] at hp; simp at hp
      | some q =>
        rw [hq] at hp
        simp only [Option.some.injEq] at hp
        subst hp
        exact ih q hq
    · simp only [swapFirstNonShrink, if_neg hx, Option.some.injEq] at hp
      subst hp
      exact hx

theorem swapFirstNonShrink_all_shrink (h : String) :
    ∀ l, (∀ x ∈ l, x = "shrink") → swapFirstNonShrink h l = none := by
  intro l
  induction l with
  | nil => intro _; rfl
  | cons x xs ih =>
    intro hall
    have hx : x = "shrink" := hall x (List.mem_cons_self x xs)
    have hxs : ∀ y ∈ xs, y = "shrink" := fun y hy => hall y (List.mem_cons_of_mem x hy)
    simp [swapFirstNonShrink, hx, ih hxs]

theorem fixFirstShrink_length (l : List String) :
    (fixFirstShrink l).length = l.length := by
  cases l with
  | nil => rfl
  | cons h t =>
    by_cases hh : h = "shrink"
    · simp only [fixFirstShrink, if_pos hh]
      cases hq : swapFirstNonShrink h t with
      | none => simp
      | some p => simp [swapFirstNonShrink_length h t p hq]
    · simp [fixFirstShrink, if_neg hh]

theorem fixFirstShrink_head_ne_shrink (l : List String) :
    (fixFirstShrink l).head? ≠ some "shrink" := by
  cases l with
  | nil => simp [fixFirstShrink]
  | cons h t =>
    by_cases hh : h = "shrink"
    · simp only [fixFirstShrink, if_pos hh]
      cases hq : swapFirstNonShrink h t with
      | none => simp
      | some p =>
        simp only [List.head?_cons, ne_eq, Option.some.injEq]
        exact swapFirstNonShrink_found h t p hq
    · simp [fixFirstShrink, if_neg hh, hh]

theorem fixFirstShrink_all_shrink (l : List String) (hne : l ≠ [])
    (hall : ∀ x ∈ l, x = "shrink") : (fixFirstShrink l).head? = some "expand" := by
  cases l with
  | nil => exact absurd rfl hne
  | cons h t =>
    have hh : h = "shrink" := hall h (List.mem_cons_self h t)
    have ht : ∀ y ∈ t, y = "shrink" := fun y hy => hall y (List.mem_cons_of_mem h hy)
    subst hh
    simp [fixFirstShrink, swapFirstNonShrink_all_shrink "shrink" t ht]

theorem padOrTruncate_length (total_steps : Nat) (pads : Nat → String)
    (base : List String) :
    (padOrTruncate total_steps pads base).length = total_steps := by
  unfold padOrTruncate
  split
  · simp; omega
  · split
    · simp; omega
    · omega

theorem buildStepArray_length (total_steps : Nat) (level : String) (pads : Nat → String) :
    (buildStepArray total_steps level pads).length = total_steps := by
  unfold buildStepArray
  split
  · simp
  · exact padOrTruncate_length total_steps pads _

theorem set_total_steps_pos (level : String) : 0 < set_total_steps level := by
  unfold set_total_steps
  split_ifs <;> norm_num

/-- **C1.** For every proficiency level string and every outcome of the
random shuffle and the random padding choices, the step-type list produced
by the scheduler (`set_step_types` applied to the step count of
`set_total_steps`) has length exactly that step count, its first element is
not `"shrink"`, and if the shuffled sequence is entirely `"shrink"` the
first element is forced to `"expand"`. -/
theorem scheduler_length_and_first_step (level : String) (pads : Nat → String)
    (shuffle : List String → List String)
    (hshuffle : ∀ l, (shuffle l).Perm l) :
    (set_step_types (set_total_steps level) level pads shuffle).length
        = set_total_steps level ∧
    (set_step_types (set_total_steps level) level pads shuffle).head? ≠ some "shrink" ∧
    ((∀ x ∈ shuffle (buildStepArray (set_total_steps level) level pads), x = "shrink") →
      (set_step_types (set_total_steps level) level pads shuffle).head? = some "expand") := by
  refine ⟨?_, ?_, ?_⟩
  · unfold set_step_types
    rw [fixFirstShrink_length, (hshuffle _).length_eq, buildStepArray_length]
  · exact fixFirstShrink_head_ne_shrink _
  · intro hall
    apply fixFirstShrink_all_shrink _ _ hall
    intro hnil
    have h1 := (hshuffle (buildStepArray (set_total_steps level) level pads)).length_eq
    rw [hnil, buildStepArray_length] at h1
    simp at h1
    have := set_total_steps_pos level
    omega

/-- Witness for the scheduler theorem: identity shuffle, constant padding,
level `"A1 - Beginner"`. -/
theorem scheduler_length_and_first_step_witness :
    (set_step_types (set_total_steps "A1 - Beginner") "A1 - Beginner"
        (fun _ => "expand") id).length = set_total_steps "A1 - Beginner" ∧
    (set_step_types (set_total_steps "A1 - Beginner") "A1 - Beginner"
        (fun _ => "expand") id).head? ≠ some "shrink" ∧
    ((∀ x ∈ id (buildStepArray (set_total_steps "A1 - Beginner") "A1 - Beginner"
        (fun _ => "expand")), x = "shrink") →
      (set_step_types (set_total_steps "A1 - Beginner") "A1 - Beginner"
        (fun _ => "expand") id).head? = some "expand") :=
  scheduler_length_and_first_step "A1 - Beginner" (fun _ => "expand") id
    (fun l => List.Perm.refl l)

/-! ## Level resolution at session creation (`pyramid_service.create_pyramid`) -/

/-- The six recognized proficiency tiers. -/
def recognizedLevels : List String :=
  ["A1 - Beginner", "A2 - Elementary", "B1 - Intermediate",
   "B2 - Upper Intermediate", "C1 - Advanced", "C2 - Proficient"]

/-- Level resolution of `create_pyramid`:
`user_level = getattr(user, "level", None) or user_from_db.get("level")`,
then `if not user_level: raise`.  `none` models a missing level and `some ""`
an empty one; the result is `none` exactly when creation fails with the
missing-level error. -/
def resolve_user_level (authLevel dbLevel : Option String) : Option String :=
  let combined :=
    match authLevel with
    | some s => if s ≠ "" then some s else dbLevel
    | none => dbLevel
  match combined with
  | some s => if s ≠ "" then some s else none
  | none => none

/-- **C10.** A non-empty proficiency level outside the six recognized tiers
does not make session creation fail: the total-step count defaults to 11,
the scheduler uses the B1 ratio vector (so the whole pre-shuffle step array
equals the B1 one), level resolution succeeds, and resolution fails only
when the level is missing or empty on both the authenticated user and the
stored record. -/
theorem unrecognized_level_defaults (lvl : String) (hne : lvl ≠ "")
    (hmem : lvl ∉ recognizedLevels) :
    set_total_steps lvl = 11 ∧
    typeRatiosLookup lvl = typeRatiosLookup "B1 - Intermediate" ∧
    (∀ total pads,
      buildStepArray total lvl pads = buildStepArray total "B1 - Intermediate" pads) ∧
    (∀ db, resolve_user_level (some lvl) db = some lvl) ∧
    (∀ auth db, resolve_user_level auth db = none ↔
      ((auth = none ∨ auth = some "") ∧ (db = none ∨ db = some ""))) := by
  simp only [recognizedLevels, List.mem_cons, List.not_mem_nil, or_false, not_or] at hmem
  obtain ⟨h1, h2, h3, h4, h5, h6⟩ := hmem
  have hratios : typeRatiosLookup lvl = typeRatiosLookup "B1 - Intermediate" := by
    simp [typeRatiosLookup, h1, h2, h3, h4, h5, h6]
  refine ⟨?_, hratios, ?_, ?_, ?_⟩
  · simp [set_total_steps, h1, h2, h3, h4, h5, h6]
  · intro total pads
    have hbase : baseStepArray total lvl = baseStepArray total "B1 - Intermediate" := by
      unfold baseStepArray
      rw [hratios]
    unfold buildStepArray
    rw [hbase]
  · intro db
    simp [resolve_user_level, hne]
  · intro auth db
    cases auth with
    | none =>
      cases db with
      | none => simp [resolve_user_level]
      | some d => by_cases hd : d = "" <;> simp [resolve_user_level, hd]
    | some a =>
      by_cases ha : a = ""
      · subst ha
        cases db with
        | none => simp [resolve_user_level]
        | some d => by_cases hd : d = "" <;> simp [resolve_user_level, hd]
      · simp [resolve_user_level, ha]

/-- Witness for the unrecognized-level theorem at the concrete level
`"D1 - Custom"`. -/
theorem unrecognized_level_defaults_witness :
    set_total_steps "D1 - Custom" = 11 ∧
    typeRatiosLookup "D1 - Custom" = typeRatiosLookup "B1 - Intermediate" ∧
    (∀ total pads, buildStepArray total "D1 - Custom" pads
        = buildStepArray total "B1 - Intermediate" pads) ∧
    (∀ db, resolve_user_level (some "D1 - Custom") db = some "D1 - Custom") ∧
    (∀ auth db, resolve_user_level auth db = none ↔
      ((auth = none ∨ auth = some "") ∧ (db = none ∨ db = some ""))) :=
  unrecognized_level_defaults "D1 - Custom" (by decide) (by decide)

/-! ## Pyramid data model (`models/pyramid.py`) -/

/-- The four option variants of `models/pyramid.py` (`PyramidExpandOptions`,
`PyramidShrinkOptions`, `PyramidReplaceOptions`, `PyramidParaphOptions`). -/
inductive PyramidOption where
  | expandOpt (sentence meaning expand_word : String)
  | shrinkOpt (sentence meaning removed_word : String)
  | replaceOpt (sentence meaning changed_word replaced_word : String)
  | paraphOpt (paraphrased_sentence meaning : String)
deriving Repr, DecidableEq, Inhabited

/-- The discriminator the pydantic `Literal` types would assign an option. -/
def PyramidOption.variantTag : PyramidOption → String
  | .expandOpt _ _ _ => "expand"
  | .shrinkOpt _ _ _ => "shrink"
  | .replaceOpt _ _ _ _ => "replace"
  | .paraphOpt _ _ => "paraphrase"

/-- One pyramid step (`PyramidItemBase` and its four `Literal` subclasses,
flattened to a `step_type` tag). -/
structure PyramidStep where
  step_type : String
  initial_sentence : String
  initial_sentence_meaning : String
  options : List PyramidOption
  selected_option : Option Nat := none
  selected_sentence : Option String := none
  option_words : List String := []
deriving Repr, DecidableEq, Inhabited

/-- A pyramid session document (`Pyramid` in `models/pyramid.py`);
timestamps are abstracted to natural-number seconds. -/
structure Pyramid where
  id : String
  user_id : String
  step_types : List String
  steps : List PyramidStep
  total_steps : Nat
  last_step : Nat
  completed : Bool
  created_at : Nat
  updated_at : Nat
deriving Repr, DecidableEq, Inhabited

/-! ## Anti-repetition tracker
(`pyramid_service._collect_option_words_from_previous_steps`) -/

/-- The dedup loop of `_collect_option_words_from_previous_steps`: `seen`
holds the lower-cased spellings already kept; a word is kept when it is
non-empty and its lower-casing is unseen. -/
def dedupLowerGo (seen : List String) : List String → List String
  | [] => []
  | w :: ws =>
    if w ≠ "" ∧ w.toLower ∉ seen then w :: dedupLowerGo (w.toLower :: seen) ws
    else dedupLowerGo seen ws

/-- `_collect_option_words_from_previous_steps` from `pyramid_service.py`:
concatenate the steps' `option_words` (the `hasattr` test is always true on
this model; the truthiness test skips only empty lists, which contribute
nothing) and deduplicate case‑insensitively keeping first occurrences. -/
def collect_option_words (pyramid_steps : List PyramidStep) : List String :=
  dedupLowerGo []
    (pyramid_steps.foldl
      (fun acc step => if step.option_words ≠ [] then acc ++ step.option_words else acc)
      [])

/-- Specification-level tracker, written from the claim: drop empty entries
from the concatenation, then keep exactly the first occurrence of each
case-insensitive spelling, in first-occurrence order. -/
def keepFirstByLower (l : List String) : List String :=
  match l with
  | [] => []
  | w :: ws => w :: keepFirstByLower (ws.filter (fun v => v.toLower ≠ w.toLower))
termination_by l.length
decreasing_by
  simp only [List.length_cons]
  exact Nat.lt_succ_of_le (List.length_filter_le _ _)

theorem keepFirstByLower_subset (l : List String) :
    ∀ v ∈ keepFirstByLower l, v ∈ l := by
  induction l using keepFirstByLower.induct with
  | case1 => intro v hv; simp [keepFirstByLower] at hv
  | case2 w ws ih =>
    intro v hv
    rw [keepFirstByLower] at hv
    rcases List.mem_cons.mp hv with h | h
    · simp [h]
    · exact List.mem_cons_of_mem w (List.mem_of_mem_filter (ih v h))

theorem keepFirstByLower_pairwise (l : List String) :
    (keepFirstByLower l).Pairwise (fun a b => a.toLower ≠ b.toLower) := by
  induction l using keepFirstByLower.induct with
  | case1 => simp [keepFirstByLower]
  | case2 w ws ih =>
    rw [keepFirstByLower]
    refine List.Pairwise.cons ?_ ih
    intro v hv
    have hmem := keepFirstByLower_subset _ v hv
    have := List.of_mem_filter hmem
    intro hcontra
    rw [hcontra] at this
    simp at this

theorem dedupLowerGo_eq_keepFirst (l : List String) :
    ∀ seen, dedupLowerGo seen l
      = keepFirstByLower (l.filter (fun w => w ≠ "" ∧ w.toLower ∉ seen)) := by
  induction l with
  | nil => intro seen; simp [dedupLowerGo, keepFirstByLower]
  | cons w ws ih =>
    intro seen
    by_cases hw : w ≠ "" ∧ w.toLower ∉ seen
    · have hdec : decide (w ≠ "" ∧ w.toLower ∉ seen) = true := decide_eq_true hw
      simp only [dedupLowerGo, if_pos hw, List.filter_cons, hdec, if_pos]
      rw [keepFirstByLower, List.filter_filter, ih (w.toLower :: seen)]
      congr 2
      apply List.filter_congr
      intro a _
      rw [Bool.eq_iff_iff]
      simp only [Bool.and_eq_true, decide_eq_true_eq, List.mem_cons]
      tauto
    · have hdec : decide (w ≠ "" ∧ w.toLower ∉ seen) = false := decide_eq_false hw
      simp only [dedupLowerGo, if_neg hw, List.filter_cons, hdec]
      exact ih seen

/-- **C5.** The anti-repetition tracker returns the concatenation of the
steps' `option_words` lists with empty entries dropped and case-insensitive
duplicates removed: it equals the first-occurrence keyed dedup of the
filtered concatenation (so each retained entry keeps the spelling of its
first occurrence and output order is first-occurrence order), and no two
output entries agree after lower-casing. -/
theorem tracker_first_occurrence_dedup (pyramid_steps : List PyramidStep) :
    collect_option_words pyramid_steps
      = keepFirstByLower
          ((pyramid_steps.flatMap (fun s => s.option_words)).filter (fun w => w ≠ "")) ∧
    (collect_option_words pyramid_steps).Pairwise (fun a b => a.toLower ≠ b.toLower) := by
  have hfold : ∀ (steps : List PyramidStep) (acc : List String),
      steps.foldl
        (fun acc step =>
          if step.option_words ≠ [] then acc ++ step.option_words else acc) acc
        = acc ++ steps.flatMap (fun s => s.option_words) := by
    intro steps
    induction steps with
    | nil => intro acc; simp
    | cons s ss ihs =>
      intro acc
      rw [List.foldl_cons, List.flatMap_cons]
      by_cases hs : s.option_words = []
      · rw [if_neg (by simp [hs]), ihs, hs]
        simp
      · rw [if_pos hs, ihs, List.append_assoc]
  have hcollect : collect_option_words pyramid_steps
      = dedupLowerGo [] (pyramid_steps.flatMap (fun s => s.option_words)) := by
    unfold collect_option_words
    rw [hfold pyramid_steps []]
    simp
  constructor
  · rw [hcollect, dedupLowerGo_eq_keepFirst]
    congr 1
    apply List.filter_congr
    intro a _
    simp
  · rw [hcollect, dedupLowerGo_eq_keepFirst]
    exact keepFirstByLower_pairwise _

/-! ## Session state machine (`pyramid_service.create_pyramid` /
`save_user_selection_for_step` / `append_given_step`) -/

/-- The `ValueError`s the state machine raises, one constructor per distinct
message; the source raises before any database write, so an error leaves the
stored session unchanged. -/
inductive PyramidError where
  | alreadyCompleted
  | inconsistentState
  | invalidSelection
  | emptySentence
  | sequenceExhausted
  | unknownStepType
  | typeMismatch
deriving Repr, DecidableEq

/-- Sentence resolution of `save_user_selection_for_step`: paraphrase
options use `paraphrased_sentence` (the `isinstance` branch), every other
variant exposes its `sentence` field (the `hasattr` branch). -/
def optionSentence : PyramidOption → String
  | .paraphOpt ps _ => ps
  | .expandOpt s _ _ => s
  | .shrinkOpt s _ _ => s
  | .replaceOpt s _ _ _ => s

/-- The step at the session's cursor (`pyramid.steps[pyramid.last_step]`,
guarded in the source by the bounds check preceding every use). -/
def currentStep (p : Pyramid) : PyramidStep := p.steps.getD p.last_step default

/-- `save_user_selection_for_step` from `pyramid_service.py`.  The index
arrives as a Python int, hence `Int`.  On success the source writes exactly
`steps.{last_step}.selected_option`, `steps.{last_step}.selected_sentence`
and `updated_at` to the store, which the returned record mirrors. -/
def save_user_selection_for_step (p : Pyramid) (selected_option_index : Int)
    (now : Nat) : Except PyramidError (Pyramid × String) :=
  if p.completed then .error .alreadyCompleted
  else if p.steps.length ≤ p.last_step then .error .inconsistentState
  else if (currentStep p).options = [] ∨
      ¬ (0 ≤ selected_option_index ∧
         selected_option_index < ((currentStep p).options.length : Int)) then
    .error .invalidSelection
  else if optionSentence
      ((currentStep p).options.getD selected_option_index.toNat default) = "" then
    .error .emptySentence
  else
    .ok ({p with
            steps := p.steps.set p.last_step
              { currentStep p with
                  selected_option := some selected_option_index.toNat,
                  selected_sentence := some (optionSentence
                    ((currentStep p).options.getD selected_option_index.toNat default)) },
            updated_at := now},
         optionSentence ((currentStep p).options.getD selected_option_index.toNat default))

/-- `append_given_step` from `pyramid_service.py`; the supplied step arrives
already parsed, and `_parse_step_item_from_dict` rejects an unrecognized
scheduled kind (`unknownStepType`) or a `step_type` disagreeing with the
scheduled kind (pydantic `Literal` validation, `typeMismatch`). -/
def append_given_step (p : Pyramid) (next_step : PyramidStep) (now : Nat) :
    Except PyramidError Pyramid :=
  if p.completed then .error .alreadyCompleted
  else if p.total_steps - 1 ≤ p.last_step then .error .sequenceExhausted
  else if p.step_types.getD (p.last_step + 1) "" ∉ transformationTypes then
    .error .unknownStepType
  else if next_step.step_type ≠ p.step_types.getD (p.last_step + 1) "" then
    .error .typeMismatch
  else
    .ok { p with
          steps := p.steps ++ [next_step],
          last_step := p.last_step + 1,
          updated_at := now }

/-- The pure core of `create_pyramid`: the session document it persists,
with the generated first step and the scheduler outputs as inputs. -/
def create_pyramid_core (pid uid : String) (step_types : List String)
    (total_steps : Nat) (first_step : PyramidStep) (now : Nat) : Pyramid :=
  { id := pid, user_id := uid, step_types := step_types, steps := [first_step],
    total_steps := total_steps, last_step := 0, completed := false,
    created_at := now, updated_at := now }

/-- A session at its final step: `total_steps = 8`, `last_step = 7` (the
claim's concrete rejection example). -/
def examplePyramid8 : Pyramid :=
  { id := "p8", user_id := "u", step_types := List.replicate 8 "expand",
    steps := List.replicate 8 default, total_steps := 8, last_step := 7,
    completed := false, created_at := 0, updated_at := 0 }

/-- **C6.** `append_given_step` fails with the already-completed error on a
completed session, with the sequence-exhausted error when
`last_step >= total_steps - 1` (in particular for `total_steps = 8`,
`last_step = 7`), and with the type-mismatch error when the supplied step's
kind differs from `step_types[last_step + 1]`; each failure returns before
any write, leaving the session unchanged, and on success exactly the
supplied step is appended and `last_step` increases by one.  The hypotheses
are the session well-formedness create establishes: `step_types` has length
`total_steps` and holds only the four transformation kinds. -/
theorem append_step_guards (p : Pyramid) (s : PyramidStep) (now : Nat)
    (hlen : p.step_types.length = p.total_steps)
    (hkinds : ∀ k ∈ p.step_types, k ∈ transformationTypes) :
    (p.completed = true → append_given_step p s now = .error .alreadyCompleted) ∧
    (p.completed = false → p.total_steps ≤ p.last_step + 1 →
      append_given_step p s now = .error .sequenceExhausted) ∧
    (p.completed = false → p.last_step + 1 < p.total_steps →
      s.step_type ≠ p.step_types.getD (p.last_step + 1) "" →
      append_given_step p s now = .error .typeMismatch) ∧
    (p.completed = false → p.last_step + 1 < p.total_steps →
      s.step_type = p.step_types.getD (p.last_step + 1) "" →
      append_given_step p s now
        = .ok { p with
                steps := p.steps ++ [s],
                last_step := p.last_step + 1,
                updated_at := now }) ∧
    append_given_step examplePyramid8 s now = .error .sequenceExhausted := by
  have hmem : p.last_step + 1 < p.total_steps →
      p.step_types.getD (p.last_step + 1) "" ∈ transformationTypes := by
    intro hlt
    apply hkinds
    have hidx : p.last_step + 1 < p.step_types.length := by omega
    rw [List.getD_eq_getElem _ _ hidx]
    exact List.getElem_mem hidx
  refine ⟨?_, ?_, ?_, ?_, ?_⟩
  · intro hc
    rw [append_given_step, if_pos hc]
  · intro hc hseq
    rw [append_given_step, if_neg (by simp [hc]), if_pos (by omega)]
  · intro hc hlt hne
    rw [append_given_step, if_neg (by simp [hc]), if_neg (by omega),
        if_neg (not_not_intro (hmem hlt)), if_pos hne]
  · intro hc hlt heq
    rw [append_given_step, if_neg (by simp [hc]), if_neg (by omega),
        if_neg (not_not_intro (hmem hlt)), if_neg (not_not_intro heq)]
  · rw [append_given_step, if_neg (by simp [examplePyramid8]),
        if_pos (by simp [examplePyramid8])]

/-- Witness for the append guards at the concrete session `examplePyramid8`
(total 8, cursor 7): the sequence-exhausted rejection fires. -/
theorem append_step_guards_witness :
    examplePyramid8.step_types.length = examplePyramid8.total_steps ∧
    examplePyramid8.completed = false ∧
    examplePyramid8.total_steps ≤ examplePyramid8.last_step + 1 ∧
    append_given_step examplePyramid8 default 3 = .error .sequenceExhausted :=
  ⟨by decide, by decide, by decide,
    (append_step_guards examplePyramid8 default 3 (by decide) (by decide)).2.1
      (by decide) (by decide)⟩

/-- Sessions reachable from creation by the state machine: `create` gives
the root (one pre-populated step, cursor 0), successful `select` and
`append` calls give the transitions (both reject completed sessions, so the
chain stays in the in-progress regime the claim quantifies over). -/
inductive ReachablePyramid : Pyramid → Prop where
  | created (pid uid : String) (step_types : List String) (total_steps : Nat)
      (first_step : PyramidStep) (now : Nat) :
      ReachablePyramid (create_pyramid_core pid uid step_types total_steps first_step now)
  | selected (p : Pyramid) (idx : Int) (now : Nat) (p' : Pyramid) (s : String) :
      ReachablePyramid p → save_user_selection_for_step p idx now = .ok (p', s) →
      ReachablePyramid p'
  | appended (p : Pyramid) (st : PyramidStep) (now : Nat) (p' : Pyramid) :
      ReachablePyramid p → append_given_step p st now = .ok p' →
      ReachablePyramid p'

/-- **C9.** Every session reachable from creation by select / append
operations satisfies `len(steps) = last_step + 1`: creation establishes it
with one pre-populated step and cursor 0, append adds one step and
increments the cursor together, and select changes neither quantity. -/
theorem reachable_cursor_invariant (p : Pyramid) (h : ReachablePyramid p) :
    p.steps.length = p.last_step + 1 := by
  induction h with
  | created pid uid st total fs now => simp [create_pyramid_core]
  | selected q idx now q' s hr hok ih =>
    rw [save_user_selection_for_step] at hok
    split_ifs at hok
    simp only [Except.ok.injEq, Prod.mk.injEq] at hok
    rw [← hok.1]
    simpa using ih
  | appended q st now q' hr hok ih =>
    rw [append_given_step] at hok
    split_ifs at hok
    simp only [Except.ok.injEq] at hok
    rw [← hok]
    simpa using ih

/-- Witness for the cursor invariant at a freshly created session. -/
theorem reachable_cursor_invariant_witness :
    (create_pyramid_core "p" "u" ["expand"] 1 default 0).steps.length
      = (create_pyramid_core "p" "u" ["expand"] 1 default 0).last_step + 1 :=
  reachable_cursor_invariant _
    (ReachablePyramid.created "p" "u" ["expand"] 1 default 0)

/-- A non-completed session whose current (paraphrase) step has one option
with an empty `paraphrased_sentence`. -/
def emptyOptionPyramid : Pyramid :=
  { id := "cex", user_id := "u", step_types := ["paraphrase"],
    steps := [{ step_type := "paraphrase", initial_sentence := "s",
                initial_sentence_meaning := "m",
                options := [.paraphOpt "" "meaning"] }],
    total_steps := 1, last_step := 0, completed := false,
    created_at := 0, updated_at := 0 }

/-- **C7 counterexample.** On a non-completed session with the in-range
option index 0, the claim asserts the select operation commits the
selection; the code instead rejects it with an error because the option's
resolved sentence is empty, leaving the session unchanged. -/
theorem select_empty_sentence_counterexample :
    emptyOptionPyramid.completed = false ∧
    emptyOptionPyramid.last_step < emptyOptionPyramid.steps.length ∧
    ((0 : Int) ≤ 0 ∧
      (0 : Int) < ((currentStep emptyOptionPyramid).options.length : Int)) ∧
    save_user_selection_for_step emptyOptionPyramid 0 5
      = .error .emptySentence ∧
    (save_user_selection_for_step emptyOptionPyramid 0 5).isOk = false := by
  have herr : save_user_selection_for_step emptyOptionPyramid 0 5
      = .error .emptySentence := by rfl
  exact ⟨rfl, by decide, by decide, herr, by rw [herr]; rfl⟩

/-- **C7 (amended).** On a non-completed session with an in-range option
index *whose resolved sentence is non-empty*, select commits exactly the
selected option index and resolved sentence onto the current step and
stamps `updated_at`, modifying nothing else (the success result is the
record update shown, and setting one list position leaves every other
position unchanged); an out-of-range index fails with the invalid-selection
error, a completed session with the already-completed error, and an empty
resolved sentence with the empty-sentence error — each failure returns
before any write.  Sentence resolution uses `paraphrased_sentence` for
paraphrase options and the `sentence` field for every other variant. -/
theorem select_option_behaviour (p : Pyramid) (idx : Int) (now : Nat)
    (hcur : p.last_step < p.steps.length) :
    (p.completed = true →
      save_user_selection_for_step p idx now = .error .alreadyCompleted) ∧
    (p.completed = false →
      ¬(0 ≤ idx ∧ idx < ((currentStep p).options.length : Int)) →
      save_user_selection_for_step p idx now = .error .invalidSelection) ∧
    (p.completed = false → 0 ≤ idx →
      idx < ((currentStep p).options.length : Int) →
      optionSentence ((currentStep p).options.getD idx.toNat default) ≠ "" →
      save_user_selection_for_step p idx now
        = .ok ({ p with
                 steps := p.steps.set p.last_step
                   { currentStep p with
                       selected_option := some idx.toNat,
                       selected_sentence := some (optionSentence
                         ((currentStep p).options.getD idx.toNat default)) },
                 updated_at := now },
               optionSentence ((currentStep p).options.getD idx.toNat default))) ∧
    (p.completed = false → 0 ≤ idx →
      idx < ((currentStep p).options.length : Int) →
      optionSentence ((currentStep p).options.getD idx.toNat default) = "" →
      save_user_selection_for_step p idx now = .error .emptySentence) ∧
    (∀ (st' : PyramidStep) (j : Nat), j ≠ p.last_step →
      (p.steps.set p.last_step st').getD j default = p.steps.getD j default) ∧
    (∀ ps m, optionSentence (.paraphOpt ps m) = ps) ∧
    (∀ s m w, optionSentence (.expandOpt s m w) = s) ∧
    (∀ s m w, optionSentence (.shrinkOpt s m w) = s) ∧
    (∀ s m cw rw, optionSentence (.replaceOpt s m cw rw) = s) := by
  have hoptne : 0 ≤ idx → idx < ((currentStep p).options.length : Int) →
      ¬((currentStep p).options = [] ∨
        ¬(0 ≤ idx ∧ idx < ((currentStep p).options.length : Int))) := by
    intro h0 hlt
    push_neg
    refine ⟨?_, h0, hlt⟩
    intro he
    rw [he] at hlt
    simp at hlt
    omega
  refine ⟨?_, ?_, ?_, ?_, ?_, ?_, ?_, ?_, ?_⟩
  · intro hc
    rw [save_user_selection_for_step, if_pos hc]
  · intro hc hbad
    rw [save_user_selection_for_step, if_neg (by simp [hc]),
        if_neg (by omega), if_pos (Or.inr hbad)]
  · intro hc h0 hlt hne
    rw [save_user_selection_for_step, if_neg (by simp [hc]),
        if_neg (by omega), if_neg (hoptne h0 hlt), if_neg hne]
  · intro hc h0 hlt heq
    rw [save_user_selection_for_step, if_neg (by simp [hc]),
        if_neg (by omega), if_neg (hoptne h0 hlt), if_pos heq]
  · intro st' j hj
    simp [List.getD_eq_getElem?_getD, List.getElem?_set_ne (fun hh => hj hh.symm)]
  · intro ps m; rfl
  · intro s m w; rfl
  · intro s m w; rfl
  · intro s m cw rw; rfl

/-- A non-completed session whose current step has one paraphrase option
with a non-empty sentence, for the select witness. -/
def selectWitnessPyramid : Pyramid :=
  { id := "w", user_id := "u", step_types := ["paraphrase"],
    steps := [{ step_type := "paraphrase", initial_sentence := "s",
                initial_sentence_meaning := "m",
                options := [.paraphOpt "Hi there" "meaning"] }],
    total_steps := 1, last_step := 0, completed := false,
    created_at := 0, updated_at := 0 }

/-- Witness for the amended select theorem: the successful selection on a
concrete session. -/
theorem select_option_behaviour_witness :
    save_user_selection_for_step selectWitnessPyramid 0 7
      = .ok ({ selectWitnessPyramid with
               steps := selectWitnessPyramid.steps.set selectWitnessPyramid.last_step
                 { currentStep selectWitnessPyramid with
                     selected_option := some ((0 : Int)).toNat,
                     selected_sentence := some (optionSentence
                       ((currentStep selectWitnessPyramid).options.getD
                         ((0 : Int)).toNat default)) },
               updated_at := 7 },
             optionSentence ((currentStep selectWitnessPyramid).options.getD
               ((0 : Int)).toNat default)) :=
  (select_option_behaviour selectWitnessPyramid 0 7 (by decide)).2.2.1 rfl
    (by decide) (by decide) (by decide)

/-! ## Activity event & XP engine (`models/user_event.py`,
`services/event_service.py`, `services/xp_service.py`) -/

/-- Python `int()` applied to a (modelled) float: truncation toward zero. -/
def pyTrunc (q : ℚ) : Int := if 0 ≤ q then ⌊q⌋ else ⌈q⌉

theorem pyTrunc_eq_floor (q : ℚ) (h : 0 ≤ q) : pyTrunc q = ⌊q⌋ := if_pos h

/-- The `details` payload of a `PyramidEvent`; timestamps are second counts,
`duration_seconds` is an `int` in the source. -/
structure PyramidEventDetails where
  session_start : Option Nat
  session_end : Option Nat
  duration_seconds : Int
  total_steps : Nat
  completed_steps : Nat
  accuracy_rate : ℚ
  avg_time_per_step : ℚ
  completed : Bool
  xp_earned : Int
deriving Repr, DecidableEq

/-- `PyramidEvent.calculate_session_duration`: with both bounds present the
stored duration becomes `int((end - start).total_seconds())`; otherwise the
stored value is kept. -/
def PyramidEventDetails.calculate_session_duration (d : PyramidEventDetails) :
    PyramidEventDetails :=
  match d.session_start, d.session_end with
  | some s, some e => { d with duration_seconds := (e : Int) - s }
  | _, _ => d

/-- `PyramidEvent.calculate_accuracy`: `completed_steps / total_steps`, and
0.0 when `total_steps` is 0. -/
def PyramidEventDetails.calculate_accuracy (d : PyramidEventDetails) :
    PyramidEventDetails :=
  if 0 < d.total_steps then
    { d with accuracy_rate := (d.completed_steps : ℚ) / d.total_steps }
  else { d with accuracy_rate := 0 }

/-- `PyramidEvent.calculate_avg_time_per_step`: `duration / completed_steps`
when steps were completed, else 0.0. -/
def PyramidEventDetails.calculate_avg_time_per_step (d : PyramidEventDetails) :
    PyramidEventDetails :=
  if 0 < d.completed_steps then
    { d with avg_time_per_step := (d.duration_seconds : ℚ) / d.completed_steps }
  else { d with avg_time_per_step := 0 }

/-- `base_xp = 25 + completed_steps * 5` of `PyramidEvent.calculate_xp`. -/
def pyramidBaseXp (completed_steps : Nat) : Int := 25 + completed_steps * 5

/-- The speed-bonus branch of `PyramidEvent.calculate_xp` (the float
literals 0.25 and 0.1 are modelled as the exact 1/4 and 1/10, which agree
with the IEEE computation followed by `int()` on these integer bases). -/
def pyramidSpeedBonus (base duration_seconds : Int) (completed_steps : Nat) : Int :=
  if 0 < duration_seconds ∧ 0 < completed_steps then
    if 30 ≤ (duration_seconds : ℚ) / completed_steps ∧
        (duration_seconds : ℚ) / completed_steps ≤ 120 then
      pyTrunc ((base : ℚ) * (1/4))
    else if (15 ≤ (duration_seconds : ℚ) / completed_steps ∧
          (duration_seconds : ℚ) / completed_steps < 30) ∨
        (120 < (duration_seconds : ℚ) / completed_steps ∧
          (duration_seconds : ℚ) / completed_steps ≤ 180) then
      pyTrunc ((base : ℚ) * (1/10))
    else 0
  else 0

/-- `PyramidEvent.calculate_xp`: 0 unless completed, otherwise base +
accuracy bonus + speed bonus. -/
def PyramidEventDetails.calculate_xp (d : PyramidEventDetails) : Int :=
  if ¬ d.completed then 0
  else
    pyramidBaseXp d.completed_steps
      + pyTrunc ((pyramidBaseXp d.completed_steps : ℚ) * (1/2) * d.accuracy_rate)
      + pyramidSpeedBonus (pyramidBaseXp d.completed_steps) d.duration_seconds
          d.completed_steps

/-- The state `complete_pyramid_event` leaves behind: the updated event
details, the user's cumulative XP, and whether the `$set` modified the
stored document (`modified_count > 0`), which gates the XP award. -/
structure PyramidCompletionResult where
  details : PyramidEventDetails
  userXp : Int
  modified : Bool
deriving Repr, DecidableEq

/-- `complete_pyramid_event` from `event_service.py` as a state transition:
stamp `session_end := now`, set `completed`, recompute duration, accuracy,
average step time and XP, write them back, and — when the write modified
the document and the XP is positive — add the XP to the user's total
(`get_xp` + `update_xp`, a read-increment-write). -/
def complete_pyramid_event_model (d : PyramidEventDetails) (now : Nat)
    (userXp : Int) : PyramidCompletionResult :=
  let d4 := (({ d with
                session_end := some now,
                completed := true } : PyramidEventDetails).calculate_session_duration
    ).calculate_accuracy.calculate_avg_time_per_step
  let xp := d4.calculate_xp
  let changed := decide (d.session_end ≠ some now ∨ d.completed ≠ true
      ∨ d.duration_seconds ≠ d4.duration_seconds
      ∨ d.accuracy_rate ≠ d4.accuracy_rate
      ∨ d.avg_time_per_step ≠ d4.avg_time_per_step
      ∨ d.xp_earned ≠ xp)
  { details := { d4 with xp_earned := xp },
    userXp := if changed = true ∧ 0 < xp then userXp + xp else userXp,
    modified := changed }

/-- Specification-level pyramid XP, written from the claim: base
`25 + 5*completed_steps`, accuracy bonus `floor(base * 0.5 * accuracy)` with
`accuracy = completed_steps/total_steps` (0 when `total_steps = 0`), speed
bonus by the average-seconds-per-step bands (with the average 0 when there
are no completed steps). -/
def pyramidXpSpec (total_steps completed_steps : Nat) (duration_seconds : Int) : Int :=
  (25 + 5 * completed_steps : Int)
    + ⌊((25 + 5 * completed_steps : Int) : ℚ) * (1/2)
        * (if total_steps = 0 then 0 else (completed_steps : ℚ) / total_steps)⌋
    + (if 30 ≤ (if completed_steps = 0 then 0
            else (duration_seconds : ℚ) / completed_steps) ∧
          (if completed_steps = 0 then 0
            else (duration_seconds : ℚ) / completed_steps) ≤ 120 then
        ⌊((25 + 5 * completed_steps : Int) : ℚ) * (1/4)⌋
      else if (15 ≤ (if completed_steps = 0 then 0
              else (duration_seconds : ℚ) / completed_steps) ∧
            (if completed_steps = 0 then 0
              else (duration_seconds : ℚ) / completed_steps) < 30) ∨
          (120 < (if completed_steps = 0 then 0
              else (duration_seconds : ℚ) / completed_steps) ∧
            (if completed_steps = 0 then 0
              else (duration_seconds : ℚ) / completed_steps) ≤ 180) then
        ⌊((25 + 5 * completed_steps : Int) : ℚ) * (1/10)⌋
      else 0)

theorem calculate_xp_ignores_avg (d : PyramidEventDetails) :
    d.calculate_avg_time_per_step.calculate_xp = d.calculate_xp := by
  unfold PyramidEventDetails.calculate_avg_time_per_step
  split <;> rfl

theorem pyramidSpeedBonus_eq_spec (base dur : Int) (c : Nat) (hbase : 0 ≤ base) :
    pyramidSpeedBonus base dur c
      = (if 30 ≤ (if c = 0 then 0 else (dur : ℚ) / c) ∧
            (if c = 0 then 0 else (dur : ℚ) / c) ≤ 120 then
          ⌊(base : ℚ) * (1/4)⌋
        else if (15 ≤ (if c = 0 then (0 : ℚ) else (dur : ℚ) / c) ∧
              (if c = 0 then (0 : ℚ) else (dur : ℚ) / c) < 30) ∨
            (120 < (if c = 0 then (0 : ℚ) else (dur : ℚ) / c) ∧
              (if c = 0 then (0 : ℚ) else (dur : ℚ) / c) ≤ 180) then
          ⌊(base : ℚ) * (1/10)⌋
        else 0) := by
  have hbq : (0 : ℚ) ≤ (base : ℚ) := by exact_mod_cast hbase
  unfold pyramidSpeedBonus
  by_cases hc : c = 0
  · subst hc
    rw [if_neg (by simp)]
    simp only [if_pos rfl]
    rw [if_neg (by norm_num), if_neg (by norm_num)]
  · simp only [if_neg hc]
    by_cases hd : 0 < dur
    · rw [if_pos ⟨hd, Nat.pos_of_ne_zero hc⟩,
          pyTrunc_eq_floor _ (by positivity), pyTrunc_eq_floor _ (by positivity)]
    · rw [if_neg (by tauto)]
      have havg : (dur : ℚ) / c ≤ 0 := by
        apply div_nonpos_of_nonpos_of_nonneg
        · exact_mod_cast not_lt.mp hd
        · positivity
      rw [if_neg (by rintro ⟨h1, _⟩; linarith),
          if_neg (by rintro (⟨h1, _⟩ | ⟨h1, _⟩) <;> linarith)]

theorem calc_accuracy_then_xp (ss se : Option Nat) (dur : Int) (t c : Nat)
    (acc0 avg0 : ℚ) (xp0 : Int) :
    (({ session_start := ss, session_end := se, duration_seconds := dur,
        total_steps := t, completed_steps := c, accuracy_rate := acc0,
        avg_time_per_step := avg0, completed := true, xp_earned := xp0 }
        : PyramidEventDetails).calculate_accuracy).calculate_xp
      = pyramidXpSpec t c dur := by
  have hbaseInt : pyramidBaseXp c = (25 + 5 * c : Int) := by
    unfold pyramidBaseXp; ring
  have hbnn : (0 : Int) ≤ (25 + 5 * c : Int) := by positivity
  have hbq : (0 : ℚ) ≤ ((25 + 5 * c : Int) : ℚ) := by exact_mod_cast hbnn
  unfold PyramidEventDetails.calculate_accuracy
  by_cases ht : 0 < t
  · rw [if_pos ht]
    show pyramidBaseXp c
        + pyTrunc ((pyramidBaseXp c : ℚ) * (1/2) * ((c : ℚ) / t))
        + pyramidSpeedBonus (pyramidBaseXp c) dur c
      = pyramidXpSpec t c dur
    rw [hbaseInt,
        pyTrunc_eq_floor _ (mul_nonneg (mul_nonneg hbq (by norm_num))
          (div_nonneg (by positivity) (by positivity))),
        pyramidSpeedBonus_eq_spec _ _ _ hbnn]
    unfold pyramidXpSpec
    rw [if_neg (show ¬ t = 0 by omega)]
  · rw [if_neg ht]
    show pyramidBaseXp c
        + pyTrunc ((pyramidBaseXp c : ℚ) * (1/2) * 0)
        + pyramidSpeedBonus (pyramidBaseXp c) dur c
      = pyramidXpSpec t c dur
    rw [hbaseInt,
        pyTrunc_eq_floor _ (by rw [mul_zero]),
        pyramidSpeedBonus_eq_spec _ _ _ hbnn]
    unfold pyramidXpSpec
    rw [if_pos (show t = 0 by omega)]

theorem complete_model_xp (d : PyramidEventDetails) (now : Nat) (u : Int) :
    (complete_pyramid_event_model d now u).details.xp_earned
      = (({ d with session_end := some now, completed := true }
          : PyramidEventDetails).calculate_session_duration
        ).calculate_accuracy.calculate_xp := by
  simp only [complete_pyramid_event_model]
  exact calculate_xp_ignores_avg _

/-- **C2.** For a pyramid event completed with flag true, the XP computed at
completion equals `base + accuracy_bonus + speed_bonus` with
`base = 25 + 5*completed_steps`, `accuracy_bonus =
floor(base*0.5*(completed_steps/total_steps))` (0-accuracy when
`total_steps = 0`) and the banded speed bonus on seconds-per-step (in the
completion flow the duration becomes `now - session_start` when a start is
stamped); in particular `completed_steps = 10`, `total_steps = 10`,
`duration_seconds = 900` yields 130, and with the completed flag false the
XP computation returns 0. -/
theorem pyramid_xp_formula (ss se : Option Nat) (now : Nat) (dur u xp0 : Int)
    (t c : Nat) (acc0 avg0 : ℚ) (b : Bool) :
    (({ session_start := ss, session_end := se, duration_seconds := dur,
        total_steps := t, completed_steps := c, accuracy_rate := acc0,
        avg_time_per_step := avg0, completed := true, xp_earned := xp0 }
        : PyramidEventDetails).calculate_accuracy).calculate_xp
      = pyramidXpSpec t c dur ∧
    (complete_pyramid_event_model
        { session_start := ss, session_end := se, duration_seconds := dur,
          total_steps := t, completed_steps := c, accuracy_rate := acc0,
          avg_time_per_step := avg0, completed := b, xp_earned := xp0 }
        now u).details.xp_earned
      = pyramidXpSpec t c
          (match ss with | some s => (now : Int) - (s : Int) | none => dur) ∧
    pyramidXpSpec 10 10 900 = 130 ∧
    ({ session_start := ss, session_end := se, duration_seconds := dur,
       total_steps := t, completed_steps := c, accuracy_rate := acc0,
       avg_time_per_step := avg0, completed := false, xp_earned := xp0 }
       : PyramidEventDetails).calculate_xp = 0 := by
  refine ⟨calc_accuracy_then_xp ss se dur t c acc0 avg0 xp0, ?_, ?_, rfl⟩
  · cases ss with
    | some s =>
      rw [complete_model_xp]
      exact calc_accuracy_then_xp (some s) (some now) ((now : Int) - (s : Int))
        t c acc0 avg0 xp0
    | none =>
      rw [complete_model_xp]
      exact calc_accuracy_then_xp none (some now) dur t c acc0 avg0 xp0
  · norm_num [pyramidXpSpec]

/-- A freshly created pyramid event (`create_pyramid_event`): counters and
statistics zeroed, start stamped, not completed. -/
def freshPyramidEventC4 : PyramidEventDetails :=
  { session_start := some 0, session_end := none, duration_seconds := 0,
    total_steps := 10, completed_steps := 10, accuracy_rate := 0,
    avg_time_per_step := 0, completed := false, xp_earned := 0 }

/-- The stored event after its first completion at `now = 900`. -/
def onceCompletedPyramidEvent : PyramidEventDetails :=
  (complete_pyramid_event_model freshPyramidEventC4 900 0).details

/-- **C4.** `complete_pyramid_event` is *not* a no-op on an already
completed event: the first completion of the concrete event (ten steps,
start at 0, completed at 900) stores 130 XP and raises the user total to
130; calling completion again at 2000 re-stamps `session_end`, so the
database write modifies the document, the stored `xp_earned` changes from
130 to 112 (the larger duration loses the speed bonus), and the user total
is increased a second time to 242 instead of staying 130. -/
theorem second_completion_double_awards :
    (complete_pyramid_event_model freshPyramidEventC4 900 0).details.xp_earned
        = 130 ∧
    (complete_pyramid_event_model freshPyramidEventC4 900 0).userXp = 130 ∧
    onceCompletedPyramidEvent.completed = true ∧
    onceCompletedPyramidEvent.xp_earned = 130 ∧
    (complete_pyramid_event_model onceCompletedPyramidEvent 2000 130).modified
        = true ∧
    (complete_pyramid_event_model onceCompletedPyramidEvent 2000
        130).details.xp_earned = 112 ∧
    (complete_pyramid_event_model onceCompletedPyramidEvent 2000 130).userXp
        = 242 := by
  norm_num [onceCompletedPyramidEvent, complete_pyramid_event_model,
    freshPyramidEventC4, PyramidEventDetails.calculate_session_duration,
    PyramidEventDetails.calculate_accuracy,
    PyramidEventDetails.calculate_avg_time_per_step,
    PyramidEventDetails.calculate_xp, pyramidBaseXp, pyramidSpeedBonus,
    pyTrunc]

/-- The `details` payload of a `VocabularyEvent`. -/
structure VocabularyEventDetails where
  words : List String
  duration_seconds : Int
  letter_hints_used : Nat
  relevant_word_hints_used : Nat
  emoji_hints_used : Nat
  total_hints : Nat
  correct_answers : Nat
  incorrect_answers : Nat
  accuracy_rate : ℚ
  completed : Bool
  xp_earned : Int
deriving Repr, DecidableEq

/-- `VocabularyEvent.calculate_accuracy`: with at least one attempt the rate
becomes `correct / (correct + incorrect)`; with none the stored rate is
kept. -/
def VocabularyEventDetails.calculate_accuracy (d : VocabularyEventDetails) :
    VocabularyEventDetails :=
  if 0 < d.correct_answers + d.incorrect_answers then
    { d with accuracy_rate :=
        (d.correct_answers : ℚ) / ((d.correct_answers : ℚ) + (d.incorrect_answers : ℚ)) }
  else d

/-- `VocabularyEvent.calculate_xp`: 0 unless completed, else
`max(base + accuracy_bonus - hint_penalty, word_count)` with
`base = len(words) * 5`, hint ratio `total_hints / (len(words)*3)` (1 when
there are no possible hints; the float literals 0.5 and 0.3 are the exact
1/2 and 3/10). -/
def VocabularyEventDetails.calculate_xp (d : VocabularyEventDetails) : Int :=
  if ¬ d.completed then 0
  else
    max ((d.words.length * 5 : Int)
        + pyTrunc (((d.words.length * 5 : Int) : ℚ) * (1/2) * d.accuracy_rate)
        - pyTrunc (((d.words.length * 5 : Int) : ℚ) * (3/10)
            * (if 0 < d.words.length * 3 then
                (d.total_hints : ℚ) / ((d.words.length : ℚ) * 3) else 1)))
      (d.words.length : Int)

/-- The XP `complete_vocabulary_event` computes: `calculate_accuracy`, then
mark completed, then `calculate_xp`. -/
def vocabCompletionXp (d : VocabularyEventDetails) : Int :=
  ({ d.calculate_accuracy with completed := true }
    : VocabularyEventDetails).calculate_xp

/-- Specification-level vocabulary XP, written from the claim: base
`5 * word_count`, accuracy bonus `floor(base*0.5*accuracy)` with accuracy 0
when there are no attempts, hint penalty `floor(base*0.3*hint_ratio)` with
`hint_ratio = total_hints/(word_count*3)` and 1.0 on a zero denominator,
all clamped below at one point per word. -/
def vocabXpSpec (word_count correct incorrect total_hints : Nat) : Int :=
  max ((5 * word_count : Int)
      + ⌊((5 * word_count : Int) : ℚ) * (1/2)
          * (if correct + incorrect = 0 then 0
             else (correct : ℚ) / ((correct : ℚ) + (incorrect : ℚ)))⌋
      - ⌊((5 * word_count : Int) : ℚ) * (3/10)
          * (if word_count * 3 = 0 then 1
             else (total_hints : ℚ) / ((word_count : ℚ) * 3))⌋)
    (word_count : Int)

/-- **C3.** For a vocabulary event completed with flag true, the XP computed
at completion equals `max(base + accuracy_bonus - hint_penalty, word_count)`
as the claim states (the hypothesis pins the stored accuracy at 0 for
events without attempts, which is how created events start); the result is
never below one point per word; the concrete example `word_count = 20`,
`correct = 18`, `incorrect = 2`, `total_hints = 12` yields 139; and with
the completed flag false the XP computation returns 0. -/
theorem vocab_xp_formula (ws : List String) (dur : Int) (lh rh eh hints c i : Nat)
    (acc0 : ℚ) (b : Bool) (xp0 : Int) (h0 : c + i = 0 → acc0 = 0) :
    vocabCompletionXp
        { words := ws, duration_seconds := dur, letter_hints_used := lh,
          relevant_word_hints_used := rh, emoji_hints_used := eh,
          total_hints := hints, correct_answers := c, incorrect_answers := i,
          accuracy_rate := acc0, completed := b, xp_earned := xp0 }
      = vocabXpSpec ws.length c i hints ∧
    (ws.length : Int) ≤ vocabXpSpec ws.length c i hints ∧
    vocabXpSpec 20 18 2 12 = 139 ∧
    ({ words := ws, duration_seconds := dur, letter_hints_used := lh,
       relevant_word_hints_used := rh, emoji_hints_used := eh,
       total_hints := hints, correct_answers := c, incorrect_answers := i,
       accuracy_rate := acc0, completed := false, xp_earned := xp0 }
       : VocabularyEventDetails).calculate_xp = 0 := by
  have hbase : (ws.length * 5 : Int) = (5 * ws.length : Int) := by ring
  have hbnn : (0 : Int) ≤ (5 * ws.length : Int) := by positivity
  have hbq : (0 : ℚ) ≤ ((5 * ws.length : Int) : ℚ) := by exact_mod_cast hbnn
  refine ⟨?_, le_max_right _ _, by norm_num [vocabXpSpec], rfl⟩
  unfold vocabCompletionXp VocabularyEventDetails.calculate_accuracy
  by_cases hai : 0 < c + i
  · rw [if_pos hai]
    show max ((ws.length * 5 : Int)
          + pyTrunc (((ws.length * 5 : Int) : ℚ) * (1/2)
              * ((c : ℚ) / ((c : ℚ) + (i : ℚ))))
          - pyTrunc (((ws.length * 5 : Int) : ℚ) * (3/10)
              * (if 0 < ws.length * 3 then
                  (hints : ℚ) / ((ws.length : ℚ) * 3) else 1)))
        (ws.length : Int)
      = vocabXpSpec ws.length c i hints
    rw [hbase]
    by_cases h3 : 0 < ws.length * 3
    · rw [if_pos h3,
          pyTrunc_eq_floor _ (mul_nonneg (mul_nonneg hbq (by norm_num))
            (div_nonneg (by positivity) (by positivity))),
          pyTrunc_eq_floor _ (mul_nonneg (mul_nonneg hbq (by norm_num))
            (div_nonneg (by positivity) (by positivity)))]
      unfold vocabXpSpec
      rw [if_neg (show ¬ c + i = 0 by omega),
          if_neg (show ¬ ws.length * 3 = 0 by omega)]
    · rw [if_neg h3,
          pyTrunc_eq_floor _ (mul_nonneg (mul_nonneg hbq (by norm_num))
            (div_nonneg (by positivity) (by positivity))),
          pyTrunc_eq_floor _ (mul_nonneg (mul_nonneg hbq (by norm_num))
            (by norm_num))]
      unfold vocabXpSpec
      rw [if_neg (show ¬ c + i = 0 by omega),
          if_pos (show ws.length * 3 = 0 by omega)]
  · rw [if_neg hai]
    have hacc : acc0 = 0 := h0 (by omega)
    show max ((ws.length * 5 : Int)
          + pyTrunc (((ws.length * 5 : Int) : ℚ) * (1/2) * acc0)
          - pyTrunc (((ws.length * 5 : Int) : ℚ) * (3/10)
              * (if 0 < ws.length * 3 then
                  (hints : ℚ) / ((ws.length : ℚ) * 3) else 1)))
        (ws.length : Int)
      = vocabXpSpec ws.length c i hints
    rw [hbase, hacc]
    by_cases h3 : 0 < ws.length * 3
    · rw [if_pos h3,
          pyTrunc_eq_floor _ (by rw [mul_zero]),
          pyTrunc_eq_floor _ (mul_nonneg (mul_nonneg hbq (by norm_num))
            (div_nonneg (by positivity) (by positivity)))]
      unfold vocabXpSpec
      rw [if_pos (show c + i = 0 by omega),
          if_neg (show ¬ ws.length * 3 = 0 by omega)]
    · rw [if_neg h3,
          pyTrunc_eq_floor _ (by rw [mul_zero]),
          pyTrunc_eq_floor _ (mul_nonneg (mul_nonneg hbq (by norm_num))
            (by norm_num))]
      unfold vocabXpSpec
      rw [if_pos (show c + i = 0 by omega),
          if_pos (show ws.length * 3 = 0 by omega)]

/-- Witness for the vocabulary XP theorem at the claim's concrete example
(20 words, 18 correct, 2 incorrect, 12 hints). -/
theorem vocab_xp_formula_witness :
    vocabCompletionXp
        { words := List.replicate 20 "w", duration_seconds := 300,
          letter_hints_used := 4, relevant_word_hints_used := 4,
          emoji_hints_used := 4, total_hints := 12, correct_answers := 18,
          incorrect_answers := 2, accuracy_rate := 0, completed := false,
          xp_earned := 0 }
      = vocabXpSpec (List.replicate 20 "w").length 18 2 12 ∧
    ((List.replicate 20 "w").length : Int)
      ≤ vocabXpSpec (List.replicate 20 "w").length 18 2 12 ∧
    vocabXpSpec 20 18 2 12 = 139 ∧
    ({ words := List.replicate 20 "w", duration_seconds := 300,
       letter_hints_used := 4, relevant_word_hints_used := 4,
       emoji_hints_used := 4, total_hints := 12, correct_answers := 18,
       incorrect_answers := 2, accuracy_rate := 0, completed := false,
       xp_earned := 0 } : VocabularyEventDetails).calculate_xp = 0 :=
  vocab_xp_formula (List.replicate 20 "w") 300 4 4 4 12 18 2 0 false 0
    (fun h => absurd h (by decide))

/-! ## Content generator adapter retry loop
(`api_clients/pyramid_prompts.expand_sentence`,
`pyramid_service.create_expand_options`) -/

/-- The `while retry_count < max_retries` loop of `expand_sentence`: each
attempt calls the external generator (`oracle n` is `none` when attempt `n`
raises), a failure increments the counter, returning `None` once the bound
is reached and otherwise sleeping one second before the next attempt.  The
result is `(value, attempts made, sleep durations in seconds)`; exceptions
are always caught, so the loop is a total function. -/
def retryAttempts (oracle : Nat → Option α) (max_retries retry_count : Nat) :
    Option α × Nat × List Nat :=
  if retry_count < max_retries then
    match oracle retry_count with
    | some v => (some v, 1, [])
    | none =>
      if max_retries ≤ retry_count + 1 then (none, 1, [])
      else
        ((retryAttempts oracle max_retries (retry_count + 1)).1,
         (retryAttempts oracle max_retries (retry_count + 1)).2.1 + 1,
         1 :: (retryAttempts oracle max_retries (retry_count + 1)).2.2)
  else (none, 0, [])
termination_by max_retries - retry_count
decreasing_by omega

/-- `expand_sentence` with its default bound `max_retries = 3`. -/
def expand_sentence_model (oracle : Nat → Option α) : Option α × Nat × List Nat :=
  retryAttempts oracle 3 0

/-- The fallback item `create_expand_options` builds when the adapter
returns `None`: an expand step with no options. -/
def defaultExpandStep (sentence : String) : PyramidStep :=
  { step_type := "expand", initial_sentence := sentence,
    initial_sentence_meaning := "Anlam alınamadı", options := [] }

/-- `create_expand_options` from `pyramid_service.py`: call the adapter,
fall back to the empty default item on `None`, otherwise derive
`option_words` from the non-empty `expand_word`s of the options. -/
def create_expand_options_model (oracle : Nat → Option PyramidStep)
    (sentence : String) : PyramidStep :=
  match (expand_sentence_model oracle).1 with
  | none => defaultExpandStep sentence
  | some item =>
    { item with
      option_words := item.options.filterMap (fun o =>
        match o with
        | .expandOpt _ _ w => if w ≠ "" then some w else none
        | _ => none) }

theorem retryAttempts_bounded (oracle : Nat → Option α) :
    ∀ n r m, m - r = n → (retryAttempts oracle m r).2.1 ≤ m - r := by
  intro n
  induction n using Nat.strong_induction_on with
  | _ n ih =>
    intro r m hn
    rw [retryAttempts]
    by_cases h1 : r < m
    · rw [if_pos h1]
      cases hor : oracle r with
      | some v => simp; omega
      | none =>
        by_cases h2 : m ≤ r + 1
        · rw [if_pos h2]; simp; omega
        · rw [if_neg h2]
          have hrec := ih (m - (r + 1)) (by omega) (r + 1) m rfl
          simp only
          omega
    · rw [if_neg h1]
      simp

/-- **C8.** With the default bound of 3, a generation request whose
external call fails on every attempt makes exactly 3 attempts, sleeps the
fixed 1 second between consecutive attempts (two delays for three
attempts), and returns the terminal `none` instead of propagating an
exception, upon which the session-flow caller substitutes the empty default
step instead of crashing; for any outcome sequence the loop never makes
more than 3 attempts. -/
theorem generator_retry_policy (oracle : Nat → Option PyramidStep)
    (sentence : String) (hfail : ∀ n, oracle n = none) :
    expand_sentence_model oracle = (none, 3, [1, 1]) ∧
    create_expand_options_model oracle sentence = defaultExpandStep sentence ∧
    (∀ g : Nat → Option PyramidStep, (expand_sentence_model g).2.1 ≤ 3) := by
  have hrun : expand_sentence_model oracle = (none, 3, [1, 1]) := by
    unfold expand_sentence_model
    rw [retryAttempts]
    simp only [hfail]
    norm_num
    rw [retryAttempts]
    simp only [hfail]
    norm_num
    rw [retryAttempts]
    simp only [hfail]
    norm_num
  refine ⟨hrun, ?_, ?_⟩
  · unfold create_expand_options_model
    rw [hrun]
  · intro g
    have := retryAttempts_bounded g 3 0 3 rfl
    simpa using this

/-- Witness for the retry policy with the always-failing oracle. -/
theorem generator_retry_policy_witness :
    expand_sentence_model (fun _ => (none : Option PyramidStep)) = (none, 3, [1, 1]) ∧
    create_expand_options_model (fun _ => none) "Hello" = defaultExpandStep "Hello" ∧
    (∀ g : Nat → Option PyramidStep, (expand_sentence_model g).2.1 ≤ 3) :=
  generator_retry_policy (fun _ => none) "Hello" (fun _ => rfl)
